import Mathlib

/-!
Verification of the `StatusDisplay` terminal progress indicator of nx_misc
(src/nx_misc/__init__.py), against its natural-language specification.

The Python class is shallowly embedded: the object's instance dictionary
becomes a record of `Option`-valued attributes (reading an attribute that was
never assigned raises `AttributeError`), Python strings become lists of
characters, timestamps become microsecond counts passed to each call, and
`sys.stderr.isatty()` becomes a boolean argument of each call.  Every
operation returns the state of the object afterwards, the text it wrote to
stderr, and the exception it raised, if any.
-/

/-- Python strings, modelled as lists of characters. -/
abbrev PyStr := List Char

/-- The whitespace characters removed by Python's `str.strip()` (ASCII set;
the Unicode spaces also stripped by Python never occur in the claims). -/
def isPySpace (c : Char) : Bool :=
  c = ' ' || c = '\t' || c = '\n' || c = '\r' || c = '\x0b' || c = '\x0c'

/-- Python `msg.strip()`: remove leading and trailing whitespace. -/
def pyStrip (l : PyStr) : PyStr :=
  ((l.dropWhile isPySpace).reverse.dropWhile isPySpace).reverse

/-- Python `str(n)` for a natural number. -/
def natStr (n : Nat) : PyStr := (Nat.repr n).data

/-- Python `'%02d'`-style zero padding, as produced inside `str(timedelta)`
for the minute and second fields (faithful for `n < 100`; `timedelta`
guarantees both fields are below 60). -/
def pad2 (n : Nat) : PyStr := [Nat.digitChar (n / 10 % 10), Nat.digitChar (n % 10)]

/-- Python `'%06d'`-style zero padding, as produced inside `str(timedelta)`
for the microsecond field (faithful for `n < 1000000`, which `timedelta`
guarantees). -/
def pad6 (n : Nat) : PyStr :=
  [Nat.digitChar (n / 100000 % 10), Nat.digitChar (n / 10000 % 10),
   Nat.digitChar (n / 1000 % 10), Nat.digitChar (n / 100 % 10),
   Nat.digitChar (n / 10 % 10), Nat.digitChar (n % 10)]

/-- Python `str(timedelta)` for a non-negative duration of `us` microseconds:
`'[D day(s), ]H:MM:SS[.ffffff]'`.  The hour field carries no leading zero,
whole days are split off into a `'D day(s), '` prefix, and the 6-digit
fractional part is present if and only if the microsecond component is
non-zero. -/
def tdStr (us : Nat) : PyStr :=
  let micro := us % 1000000
  let secs := us / 1000000
  (if secs / 86400 = 0 then [] else
    natStr (secs / 86400) ++ (if secs / 86400 = 1 then " day, ".data else " days, ".data))
  ++ natStr (secs / 3600 % 24) ++ ':' :: pad2 (secs / 60 % 60) ++ ':' :: pad2 (secs % 60)
  ++ (if micro = 0 then [] else '.' :: pad6 micro)

/-- Python `s[:-4]`. -/
def dropLast4 (l : PyStr) : PyStr := l.take (l.length - 4)

/-- The elapsed-time field written by both `tick` and `close`:
`str(elapsed)[:-4]` for an elapsed duration of `us` microseconds. -/
def elapsedField (us : Nat) : PyStr := dropLast4 (tdStr us)

/-- Floor of the base-2 logarithm, by halving, with an explicit fuel argument
so that the kernel can evaluate it (fuel 128 suffices for any input below
`2 ^ 128`, far beyond the domain on which `pyIntDiv` is meaningful). -/
def lg2 : Nat → Nat → Nat
  | 0, _ => 0
  | fuel + 1, n => if n < 2 then 0 else lg2 fuel (n / 2) + 1

/-- Python `int(a / b)` for naturals.  `a / b` is binary64 true division: the
exact rational quotient is rounded to the nearest double, ties to even
(CPython's `long_true_divide` guarantees correct rounding), and `int()`
truncates toward zero.  This formulation computes the truncation of the
rounding directly: the result is `a / b` rounded up to `a / b + 1` exactly
when the true quotient lies within half of a binary64 unit in the last place
below `a / b + 1` (that unit is `2 ^ (lg2 (a / b) - 52)`).  It is exact
whenever the true quotient is below `2 ^ 52` (so that the mantissa of
`a / b + 1` is even and ties round up); every division performed by
`StatusDisplay` has quotient at most the bar width, which never exceeds
41. -/
def pyIntDiv (a b : Nat) : Nat :=
  if b = 0 then 0
  else if a % b = 0 then a / b
  else if a / b = 0 then
    if (b - a) * 2 ^ 54 ≤ b then 1 else 0
  else
    if (b * (a / b + 1) - a) * 2 ^ 53 ≤ b * 2 ^ lg2 128 (a / b)
    then a / b + 1 else a / b

/-- Python `int(a / b)` for an integer numerator and natural denominator:
binary64 division rounds symmetrically around zero and `int()` truncates
toward zero, so the negative case mirrors the positive one. -/
def pyIntDivI (a : Int) (b : Nat) : Int :=
  if 0 ≤ a then (pyIntDiv a.toNat b : Int) else -(pyIntDiv (-a).toNat b : Int)

/-- The glyph ramp `StatusDisplay._phases`:
`(' ', '▏', '▎', '▍', '▌', '▋', '▊', '▉', '█')`. -/
def phases : List Char :=
  [' ', '▏', '▎', '▍', '▌', '▋', '▊', '▉', '█']

/-- The hide-cursor escape sequence `'\x1b[?25l'`. -/
def hideCursor : PyStr := "\x1b[?25l".data

/-- The show-cursor escape sequence `'\x1b[?25h'`. -/
def showCursor : PyStr := "\x1b[?25h".data

/-- The clear-to-end-of-line escape sequence `'\x1b[K'`. -/
def clearLine : PyStr := "\x1b[K".data

/-- The exceptions that the embedded StatusDisplay code can raise: reading an
instance attribute that was never assigned, indexing `_phases` out of range,
and (for scope bodies in the scoped-resource claims) an arbitrary caller
failure. -/
inductive PyErr where
  | attributeError : PyErr
  | indexError : PyErr
  | valueError : PyErr
deriving DecidableEq

/-- The state of a `StatusDisplay` object.  Instance attributes are
`Option`-valued because `__init__` assigns them only when stderr is a tty;
reading an unassigned one raises `AttributeError`.  `_closed` is backed by a
class attribute defaulting to `true`, but `__init__` unconditionally
overwrites it with `false` (its final statement sits outside the
`isatty()` branch). -/
structure StatusDisplay where
  orig_msg : Option PyStr := none
  count : Option (Option Nat) := none
  msg : Option PyStr := none
  _width : Option Int := none
  _tick : Option Nat := none
  _start : Option Nat := none
  _closed : Bool := true
deriving DecidableEq

/-- The result of one Python call on the object: the state afterwards, the
text written to stderr, and the exception raised, if any. -/
structure PyResult where
  sd : StatusDisplay
  out : PyStr
  err : Option PyErr
deriving DecidableEq

/-- Embedding of `StatusDisplay.__init__(msg, count=None)`.  Here `tty` is `sys.stderr.isatty()`
at construction, `now` is `NOW()` in microseconds; the unused `status`
parameter of the source is dropped.  When interactive, the initial pending
line (hide-cursor escape, fixed placeholder, full trimmed message) is written
with no newline, the display message and bar width are derived, and all
instance attributes are assigned.  When not interactive nothing is written
and no attribute is assigned - except `_closed`, which the source's final
unconditional statement sets to `false` in both cases. -/
def StatusDisplay.init (msg : PyStr) (count : Option Nat) (tty : Bool) (now : Nat) :
    StatusDisplay × PyStr :=
  if tty then
    let orig := pyStrip msg
    let short := if 39 < orig.length then orig.take 36 ++ "...".data else orig
    ({ orig_msg := some orig, count := some count, msg := some short,
       _width := some (79 - ((short.length : Int) + 38)), _tick := some 0,
       _start := some now, _closed := false },
     hideCursor ++ "[-:--:--.--] ".data ++ orig)
  else
    ({ _closed := false }, [])

/-- The bar region rendered by a determinate-mode `tick`: `width * tick`
cells are proportioned via two `int(... / count)` divisions into
`filled_length` full blocks plus one ramp glyph (`phases[phase]`, looked up
only when `phase > 0`, raising `IndexError` - `none` here - when
`phase ≥ len(phases)`), padded with spaces to `max 0 (width - ...)`. -/
def barRender (width : Int) (tick count : Nat) : Option PyStr :=
  let wpt := width * (tick : Int)
  let filled_length := pyIntDivI wpt count
  let phase := pyIntDivI ((phases.length : Int) * wpt) count
    - (phases.length : Int) * filled_length
  if 0 < phase ∧ (phases.length : Int) ≤ phase then none
  else
    let current : PyStr := if 0 < phase then [phases.getD phase.toNat ' '] else []
    some (List.replicate filled_length.toNat (phases.getLastD ' ') ++ current
      ++ List.replicate (max 0 (width - filled_length - (current.length : Int))).toNat ' ')

/-- Embedding of `StatusDisplay.tick()`: one advance call at time `now`, with
`sys.stderr.isatty() = tty`.  The elapsed time is computed (reading
`self._start`) before the tty check; when interactive, a carriage-returned
line is rebuilt: in determinate mode (`count` truthy) `ticksCompleted` is
incremented with a cap at `count` and the proportional bar plus a
`[tick/count]` counter are rendered from the short message; in indeterminate
mode the full original message is rendered.  Nothing is written when not
interactive.  `tick` never consults `_closed`. -/
def StatusDisplay.tick (sd : StatusDisplay) (tty : Bool) (now : Nat) : PyResult :=
  match sd._start with
  | none => ⟨sd, [], some .attributeError⟩
  | some start =>
    let elapsed := now - start
    if tty then
      let line := hideCursor ++ '\r' :: clearLine ++ '[' :: elapsedField elapsed ++ "] ".data
      match sd.count with
      | none => ⟨sd, [], some .attributeError⟩
      | some (some (c + 1)) =>
        match sd._tick with
        | none => ⟨sd, [], some .attributeError⟩
        | some t0 =>
          let tk := if t0 + 1 > c + 1 then c + 1 else t0 + 1
          match sd._width with
          | none => ⟨sd, [], some .attributeError⟩
          | some width =>
            match barRender width tk (c + 1) with
            | none => ⟨sd, [], some .indexError⟩
            | some bar =>
              match sd.msg with
              | none => ⟨sd, [], some .attributeError⟩
              | some m =>
                ⟨{ sd with _tick := some tk },
                 line ++ m ++ " |".data ++ bar ++ "| [".data ++ natStr tk
                   ++ '/' :: natStr (c + 1) ++ "]".data, none⟩
      | some _ =>
        match sd.orig_msg with
        | none => ⟨sd, [], some .attributeError⟩
        | some om => ⟨sd, line ++ om, none⟩
    else ⟨sd, [], none⟩

/-- The `' [<tick>[/<count>]]'` counter that `close` appends to the final
line: present whenever `self.count` is truthy, with the `'/<count>'` part
omitted when the tick count equals the total. -/
def closeCounter (tick : Nat) (count : Option Nat) : PyStr :=
  match count with
  | some (c + 1) =>
    " [".data ++ natStr tick
      ++ (if tick ≠ c + 1 then '/' :: natStr (c + 1) else []) ++ "]".data
  | _ => []

/-- Embedding of `StatusDisplay.close()` at time `now`, with `sys.stderr.isatty() = tty`.
A no-op when already closed; otherwise `_closed` is set first, then the
elapsed time is computed (reading `self._start`, which raises
`AttributeError` on a non-interactively constructed instance), and when
interactive the finalized line - full original message, optional counter,
show-cursor escape - is written with a trailing newline. -/
def StatusDisplay.close (sd : StatusDisplay) (tty : Bool) (now : Nat) : PyResult :=
  if sd._closed then ⟨sd, [], none⟩
  else
    let sd1 := { sd with _closed := true }
    match sd._start with
    | none => ⟨sd1, [], some .attributeError⟩
    | some start =>
      let elapsed := now - start
      if tty then
        match sd.orig_msg with
        | none => ⟨sd1, [], some .attributeError⟩
        | some om =>
          match sd.count with
          | none => ⟨sd1, [], some .attributeError⟩
          | some cnt =>
            match cnt, sd._tick with
            | some (_ + 1), none => ⟨sd1, [], some .attributeError⟩
            | some (c + 1), some tk =>
              ⟨sd1, '\r' :: clearLine ++ '[' :: elapsedField elapsed ++ "] ".data ++ om
                ++ closeCounter tk (some (c + 1)) ++ showCursor ++ ['\n'], none⟩
            | _, _ =>
              ⟨sd1, '\r' :: clearLine ++ '[' :: elapsedField elapsed ++ "] ".data ++ om
                ++ showCursor ++ ['\n'], none⟩
      else ⟨sd1, [], none⟩

/-- Embedding of `StatusDisplay.done()`: a named alias for `close`. -/
def StatusDisplay.done (sd : StatusDisplay) (tty : Bool) (now : Nat) : PyResult :=
  sd.close tty now

/-- Embedding of `StatusDisplay.__enter__`: it returns `self`. -/
def StatusDisplay.enter (sd : StatusDisplay) : StatusDisplay := sd

/-- Embedding of `StatusDisplay.__exit__`: it calls `close` and returns `None`, so it never
suppresses a propagating exception. -/
def StatusDisplay.scopeExit (sd : StatusDisplay) (tty : Bool) (now : Nat) : PyResult :=
  sd.close tty now

/-- Embedding of `with sd as s: body` - Python scope semantics: `__enter__` yields the
object itself, the body runs, and `__exit__` runs on every path.  An
exception raised by `__exit__` itself propagates (replacing the body's
exception); otherwise the body's exception, if any, propagates. -/
def pyWith (sd : StatusDisplay) (tty : Bool) (tEnd : Nat)
    (body : StatusDisplay → PyResult) : PyResult :=
  let r := body sd.enter
  let e := r.sd.scopeExit tty tEnd
  ⟨e.sd, r.out ++ e.out,
   match e.err with
   | some ex => some ex
   | none => r.err⟩

/-- A scope body that performs one advance call per entry of `times` and then
either returns normally (`fail = none`) or raises `fail`; an advance call
that itself raises stops the body and propagates. -/
def ticksBody (tty : Bool) (times : List Nat) (fail : Option PyErr)
    (sd : StatusDisplay) : PyResult :=
  match times with
  | [] => ⟨sd, [], fail⟩
  | t :: rest =>
    let r := sd.tick tty t
    match r.err with
    | some e => ⟨r.sd, r.out, some e⟩
    | none =>
      let r2 := ticksBody tty rest fail r.sd
      ⟨r2.sd, r.out ++ r2.out, r2.err⟩

/-- One public operation on the display, with the tty state and clock value
at the moment of the call. -/
inductive Op where
  | tick (tty : Bool) (now : Nat)
  | close (tty : Bool) (now : Nat)
  | done (tty : Bool) (now : Nat)

/-- Apply one operation. -/
def StatusDisplay.applyOp (sd : StatusDisplay) : Op → PyResult
  | .tick tty t => sd.tick tty t
  | .close tty t => sd.close tty t
  | .done tty t => sd.done tty t

/-- The state after a sequence of operations. -/
def StatusDisplay.runOps (sd : StatusDisplay) : List Op → StatusDisplay
  | [] => sd
  | op :: rest => ((sd.applyOp op).sd).runOps rest

/-- The tick count `ticksCompleted` as observed on the object: the `_tick` attribute, 0
before it is ever assigned. -/
def ticksCompleted (sd : StatusDisplay) : Nat := sd._tick.getD 0

/-- Repeated `close` calls, each with its own tty state and clock value,
collecting everything written. -/
def closeSeq (sd : StatusDisplay) : List (Bool × Nat) → StatusDisplay × PyStr
  | [] => (sd, [])
  | (tty, t) :: rest =>
    let r := sd.close tty t
    let (sd2, out2) := closeSeq r.sd rest
    (sd2, r.out ++ out2)

/-! ## Definitions following the specification's words

These definitions are written from the sentences of the spec / claims (not
from the source); the theorems below compare the source-derived operations
against them. -/

/-- Modelled from the spec's words (§4.2, claim C5): the bar consists of
`filledLength = floor(barWidth * ticks / total)` full-block glyphs, then the
ramp glyph at `phaseIndex = floor(9 * barWidth * ticks / total) -
9 * filledLength` (omitted when the index is 0), then spaces padding out to
`barWidth`, clamped at 0 minimum. -/
def specBar (barWidth ticks total : Nat) : PyStr :=
  List.replicate (barWidth * ticks / total) '█'
    ++ (if 9 * (barWidth * ticks) / total - 9 * (barWidth * ticks / total) = 0 then []
        else [phases.getD (9 * (barWidth * ticks) / total - 9 * (barWidth * ticks / total)) ' '])
    ++ List.replicate
        (barWidth - barWidth * ticks / total
          - (if 9 * (barWidth * ticks) / total - 9 * (barWidth * ticks / total) = 0
             then 0 else 1)) ' '

/-- The full line written by a determinate-mode advance, parameterized by the
bar region (the remaining layout is common to the claim and the source). -/
def tickLine (e : Nat) (m : PyStr) (bar : PyStr) (tick count : Nat) : PyStr :=
  hideCursor ++ '\r' :: clearLine ++ '[' :: elapsedField e ++ "] ".data ++ m ++ " |".data
    ++ bar ++ "| [".data ++ natStr tick ++ '/' :: natStr count ++ "]".data

/-- Modelled from the claim's words (C7, spec §4.3 step 4): the finalized-line
counter is appended only when total was set (determinate mode) AND at least
one tick occurred. -/
def specCloseCounterC7 (tick : Nat) (count : Option Nat) : PyStr :=
  match count with
  | some (c + 1) =>
    if 1 ≤ tick then
      " [".data ++ natStr tick
        ++ (if tick ≠ c + 1 then '/' :: natStr (c + 1) else []) ++ "]".data
    else []
  | _ => []

/-- Modelled from the claim's words (C8, spec §4.2 step 1): the elapsed field
formatted as `H:MM:SS.cc` with exactly two fractional digits (hours unpadded,
minutes and seconds two digits, centiseconds truncated). -/
def specElapsedC8 (us : Nat) : PyStr :=
  natStr (us / 1000000 / 3600) ++ ':' :: pad2 (us / 1000000 / 60 % 60)
    ++ ':' :: pad2 (us / 1000000 % 60) ++ '.' :: pad2 (us % 1000000 / 10000)

/-! ## Concrete states used by witnesses and counterexamples -/

/-- A 38-character message: its display form is itself, giving bar width
`79 - (38 + 38) = 3`. -/
def msg38 : PyStr := List.replicate 38 'a'

/-- The state of `StatusDisplay(msg38, 900000000000001)` (constructed on an
interactive terminal at time 0) after 633333333333333 advance calls: every
attribute is exactly as `__init__` assigns it except `_tick`, which `tick`
has raised to 633333333333333 (one increment per call, still below the
total). -/
def sdC5 : StatusDisplay :=
  ⟨some msg38, some (some 900000000000001), some msg38, some 3,
   some 633333333333333, some 0, false⟩

/-- A 31-character message: display form is itself, bar width
`79 - (31 + 38) = 10`. -/
def msg31 : PyStr := List.replicate 31 'b'

/-- The state of `StatusDisplay(msg31, 80)` (interactive, constructed at time
0) after 32 advance calls: the claim C5 instance `barWidth = 10`,
`total = 80` just before the advance that makes `ticksCompleted = 33`. -/
def sdC5w : StatusDisplay :=
  ⟨some msg31, some (some 80), some msg31, some 10, some 32, some 0, false⟩

/-! ## Helper lemmas -/

theorem phases_length_eq : phases.length = 9 := rfl

theorem phases_getLastD_eq : phases.getLastD ' ' = '█' := rfl

/-- Within its fuel, `lg2` computes a true lower bound: `2 ^ lg2 fuel n ≤ n`. -/
theorem lg2_self_le (fuel n : Nat) (h1 : 1 ≤ n) (h2 : n < 2 ^ fuel) :
    2 ^ lg2 fuel n ≤ n := by
  induction fuel generalizing n with
  | zero =>
    simp [lg2]
    omega
  | succ fuel ih =>
    rw [lg2]
    by_cases h : n < 2
    · rw [if_pos h]
      simpa using h1
    · rw [if_neg h]
      have hrec := ih (n / 2) (by omega) (by
        rw [pow_succ] at h2
        omega)
      rw [pow_succ]
      omega

/-- Python's `int(a / b)` agrees with floor division whenever the numerator is at most
`2 ^ 53`: the binary64 rounding of the true quotient cannot reach the next
integer up. -/
theorem pyIntDiv_eq_div (a b : Nat) (ha : a ≤ 2 ^ 53) (hb : 0 < b) :
    pyIntDiv a b = a / b := by
  have hbne : ¬ b = 0 := Nat.pos_iff_ne_zero.mp hb
  by_cases hr : a % b = 0
  · simp [pyIntDiv, hbne, hr]
  · have hdm := Nat.div_add_mod a b
    have hml : a % b < b := Nat.mod_lt a hb
    by_cases hk : a / b = 0
    · have hcond : ¬ ((b - a) * 2 ^ 54 ≤ b) := by
        rw [hk, Nat.mul_zero] at hdm
        omega
      rw [pyIntDiv, if_neg hbne, if_neg hr, if_pos hk, if_neg hcond]
      omega
    · have hlog : 2 ^ lg2 128 (a / b) ≤ a / b := by
        apply lg2_self_le
        · exact Nat.pos_of_ne_zero hk
        · have hd := Nat.div_le_self a b
          have hpow : (2 : Nat) ^ 53 < 2 ^ 128 := by norm_num
          omega
      have hmul : b * 2 ^ lg2 128 (a / b) ≤ b * (a / b) :=
        Nat.mul_le_mul_left b hlog
      have hcond : ¬ ((b * (a / b + 1) - a) * 2 ^ 53 ≤ b * 2 ^ lg2 128 (a / b)) := by
        rw [Nat.mul_succ]
        omega
      rw [pyIntDiv, if_neg hbne, if_neg hr, if_neg hk, if_neg hcond]

/-- The non-negative case of `pyIntDivI`, rewritten to floor division. -/
theorem pyIntDivI_eq_div (a : Nat) (b : Nat) (ha : a ≤ 2 ^ 53) (hb : 0 < b) :
    pyIntDivI (a : Int) b = ((a / b : Nat) : Int) := by
  simp [pyIntDivI, Int.toNat_natCast, pyIntDiv_eq_div a b ha hb]

/-- Clamped padding width, computed on integers then truncated, equals the
natural-number truncated subtraction. -/
theorem toNat_max_sub (A B L : Nat) :
    (max 0 ((A : Int) - B - L)).toNat = A - B - L := by
  rcases le_total ((B : Int) + L) A with h | h
  · rw [max_eq_right (by omega)]
    omega
  · rw [max_eq_left (by omega)]
    omega

/-- In the binary64-exact regime (`9 * width * tick ≤ 2 ^ 53`), the bar the
source renders is exactly the floor-arithmetic bar described by the spec. -/
theorem barRender_small (w : Int) (tk c : Nat) (hw : 0 ≤ w)
    (hsmall : 9 * (w.toNat * tk) ≤ 2 ^ 53) (hc : 0 < c) :
    barRender w tk c = some (specBar w.toNat tk c) := by
  obtain ⟨W, rfl⟩ : ∃ n : Nat, w = (n : Int) := ⟨w.toNat, (Int.toNat_of_nonneg hw).symm⟩
  rw [Int.toNat_natCast] at hsmall ⊢
  have hx : W * tk ≤ 2 ^ 53 := by omega
  have hp0 : pyIntDivI ((W : Int) * (tk : Int)) c = ((W * tk / c : Nat) : Int) := by
    rw [← Nat.cast_mul]
    exact pyIntDivI_eq_div (W * tk) c hx hc
  have hp1 : pyIntDivI ((phases.length : Int) * ((W : Int) * (tk : Int))) c
      = ((9 * (W * tk) / c : Nat) : Int) := by
    have h9 : ((phases.length : Int) * ((W : Int) * (tk : Int)))
        = ((9 * (W * tk) : Nat) : Int) := by
      rw [phases_length_eq]
      push_cast
      ring
    rw [h9]
    exact pyIntDivI_eq_div (9 * (W * tk)) c hsmall hc
  have hdm := Nat.div_add_mod (W * tk) c
  have hmlt := Nat.mod_lt (W * tk) hc
  have hlow : 9 * (W * tk / c) ≤ 9 * (W * tk) / c := by
    rw [Nat.le_div_iff_mul_le hc]
    have he : 9 * (W * tk / c) * c = 9 * (c * (W * tk / c)) := by ring
    rw [he]
    omega
  have hhigh : 9 * (W * tk) / c ≤ 9 * (W * tk / c) + 8 := by
    have h9 : 9 * (W * tk) / c < 9 * (W * tk / c) + 9 := by
      rw [Nat.div_lt_iff_lt_mul hc]
      have he : (9 * (W * tk / c) + 9) * c = 9 * (c * (W * tk / c)) + 9 * c := by ring
      rw [he]
      omega
    omega
  have hsub : ((9 * (W * tk) / c : Nat) : Int) - (phases.length : Int) * ((W * tk / c : Nat) : Int)
      = ((9 * (W * tk) / c - 9 * (W * tk / c) : Nat) : Int) := by
    rw [phases_length_eq]
    push_cast [hlow]
    ring
  have hguard : ¬ (0 < ((9 * (W * tk) / c - 9 * (W * tk / c) : Nat) : Int)
      ∧ (phases.length : Int) ≤ ((9 * (W * tk) / c - 9 * (W * tk / c) : Nat) : Int)) := by
    rw [phases_length_eq]
    rintro ⟨-, h9⟩
    have : (9 : Nat) ≤ 9 * (W * tk) / c - 9 * (W * tk / c) := by exact_mod_cast h9
    omega
  simp only [barRender, hp0, hp1, hsub]
  rw [if_neg hguard, specBar]
  by_cases hq : 9 * (W * tk) / c - 9 * (W * tk / c) = 0
  · have hpos : ¬ (0 < ((9 * (W * tk) / c - 9 * (W * tk / c) : Nat) : Int)) := by
      rw [hq]
      norm_num
    rw [if_neg hpos, if_pos hq, if_pos hq]
    simp only [Int.toNat_natCast, phases_getLastD_eq, List.length_nil,
      List.nil_append, Nat.cast_zero]
    have hmx := toNat_max_sub W (W * tk / c) 0
    rw [Nat.cast_zero] at hmx
    rw [hmx]
  · have hpos : 0 < ((9 * (W * tk) / c - 9 * (W * tk / c) : Nat) : Int) := by
      exact_mod_cast Nat.pos_of_ne_zero hq
    rw [if_pos hpos, if_neg hq, if_neg hq]
    simp only [Int.toNat_natCast, phases_getLastD_eq, List.length_cons, List.length_nil,
      Nat.cast_one, Nat.zero_add, Nat.cast_ofNat]
    have hmx := toNat_max_sub W (W * tk / c) 1
    rw [Nat.cast_one] at hmx
    rw [hmx]

/-- A determinate-mode advance on an open interactive-constructed state, in
the binary64-exact regime: the full rendered line and state update. -/
theorem tick_det_eq (sd : StatusDisplay) (st c t0 : Nat) (w : Int) (m : PyStr) (now : Nat)
    (hst : sd._start = some st) (hcnt : sd.count = some (some (c + 1)))
    (ht : sd._tick = some t0) (hw : sd._width = some w) (hm : sd.msg = some m)
    (hw0 : 0 ≤ w)
    (hsmall : 9 * (w.toNat * min (t0 + 1) (c + 1)) ≤ 2 ^ 53) :
    sd.tick true now =
      ⟨{ sd with _tick := some (min (t0 + 1) (c + 1)) },
       tickLine (now - st) m (specBar w.toNat (min (t0 + 1) (c + 1)) (c + 1))
         (min (t0 + 1) (c + 1)) (c + 1), none⟩ := by
  have hmin : (if t0 + 1 > c + 1 then c + 1 else t0 + 1) = min (t0 + 1) (c + 1) := by
    rcases le_or_lt (t0 + 1) (c + 1) with h | h
    · rw [if_neg (by omega), min_eq_left h]
    · rw [if_pos (by omega), min_eq_right (by omega)]
  simp only [StatusDisplay.tick, hst, hcnt, ht, hw, hm, hmin, if_true]
  rw [barRender_small w (min (t0 + 1) (c + 1)) (c + 1) hw0 hsmall (Nat.succ_pos c)]
  simp [tickLine, List.append_assoc]

/-- Behavior of `close` on an open instance with all attributes assigned, interactive at
close time: the finalized line, the counter policy, and the state flip. -/
theorem close_renders (sd : StatusDisplay) (st : Nat) (om : PyStr) (cnt : Option Nat)
    (tk : Nat) (now : Nat)
    (hcl : sd._closed = false) (hst : sd._start = some st)
    (hom : sd.orig_msg = some om) (hcnt : sd.count = some cnt) (ht : sd._tick = some tk) :
    sd.close true now =
      ⟨{ sd with _closed := true },
       '\r' :: clearLine ++ '[' :: elapsedField (now - st) ++ "] ".data ++ om
         ++ closeCounter tk cnt ++ showCursor ++ ['\n'], none⟩ := by
  match cnt with
  | none =>
    simp [StatusDisplay.close, hcl, hst, hom, hcnt, ht, closeCounter, List.append_assoc]
  | some 0 =>
    simp [StatusDisplay.close, hcl, hst, hom, hcnt, ht, closeCounter, List.append_assoc]
  | some (c + 1) =>
    simp [StatusDisplay.close, hcl, hst, hom, hcnt, ht, List.append_assoc]

/-- A `close` on an already-closed instance is a complete no-op. -/
theorem close_closed (sd : StatusDisplay) (h : sd._closed = true) (tty : Bool) (t : Nat) :
    sd.close tty t = ⟨sd, [], none⟩ := by
  simp [StatusDisplay.close, h]

/-- Any `close` either leaves the state alone (already closed) or only flips
`_closed`; no other attribute ever changes. -/
theorem close_sd_eq (sd : StatusDisplay) (tty : Bool) (t : Nat) :
    (sd.close tty t).sd = sd ∨ (sd.close tty t).sd = { sd with _closed := true } := by
  by_cases h : sd._closed = true
  · left
    rw [close_closed sd h]
  · right
    have h' : sd._closed = false := by simpa using h
    simp only [StatusDisplay.close, h', Bool.false_eq_true, if_false]
    rcases sd._start with _ | st
    · rfl
    · by_cases htty : tty
      · simp only [htty, if_true]
        rcases sd.orig_msg with _ | om
        · rfl
        · rcases sd.count with _ | cnt
          · rfl
          · match cnt, sd._tick with
            | none, _ => rfl
            | some 0, _ => rfl
            | some (c + 1), none => rfl
            | some (c + 1), some tk => rfl
      · simp [htty]

/-- Any `tick` either leaves the state alone (non-tty, exception, or indeterminate
mode) or only advances `_tick` by the capped increment; no other attribute
ever changes. -/
theorem tick_sd_eq (sd : StatusDisplay) (tty : Bool) (t : Nat) :
    (sd.tick tty t).sd = sd
    ∨ ∃ c t0, sd.count = some (some (c + 1)) ∧ sd._tick = some t0
        ∧ (sd.tick tty t).sd
            = { sd with _tick := some (if t0 + 1 > c + 1 then c + 1 else t0 + 1) } := by
  rcases hst : sd._start with _ | st
  · left
    simp [StatusDisplay.tick, hst]
  · by_cases htty : tty = true
    · subst htty
      rcases hcnt : sd.count with _ | (_ | (_ | c))
      · left
        simp [StatusDisplay.tick, hst, hcnt]
      · rcases hom : sd.orig_msg with _ | om <;> left <;>
          simp [StatusDisplay.tick, hst, hcnt, hom]
      · rcases hom : sd.orig_msg with _ | om <;> left <;>
          simp [StatusDisplay.tick, hst, hcnt, hom]
      · rcases ht : sd._tick with _ | t0
        · left
          simp [StatusDisplay.tick, hst, hcnt, ht]
        · rcases hw : sd._width with _ | w
          · left
            simp [StatusDisplay.tick, hst, hcnt, ht, hw]
          · rcases hbar : barRender w (if c < t0 then c + 1 else t0 + 1) (c + 1)
              with _ | bar
            · left
              simp [StatusDisplay.tick, hst, hcnt, ht, hw, hbar]
            · rcases hm : sd.msg with _ | m
              · left
                simp [StatusDisplay.tick, hst, hcnt, ht, hw, hbar, hm]
              · right
                exact ⟨c, t0, rfl, rfl,
                  by simp [StatusDisplay.tick, hst, hcnt, ht, hw, hbar, hm]⟩
    · left
      simp [StatusDisplay.tick, hst, htty]

/-- The cap invariant of claim C4: in determinate mode the tick count never
exceeds the total. -/
def capInv (sd : StatusDisplay) : Prop :=
  ∀ c, sd.count = some (some c) → ticksCompleted sd ≤ c

/-- One operation preserves the cap invariant, never decreases the tick
count, and never conjures a `_tick` attribute out of nothing. -/
theorem applyOp_step (sd : StatusDisplay) (op : Op) (h : capInv sd) :
    capInv ((sd.applyOp op).sd)
    ∧ ticksCompleted sd ≤ ticksCompleted ((sd.applyOp op).sd)
    ∧ (sd._tick = none → ((sd.applyOp op).sd)._tick = none)
    ∧ ((sd.applyOp op).sd).count = sd.count := by
  have key : ∀ sd2 : StatusDisplay, (sd2 = sd ∨
      (∃ c t0, sd.count = some (some (c + 1)) ∧ sd._tick = some t0
        ∧ sd2 = { sd with _tick := some (if t0 + 1 > c + 1 then c + 1 else t0 + 1) })
      ∨ sd2 = { sd with _closed := true }) →
      capInv sd2 ∧ ticksCompleted sd ≤ ticksCompleted sd2
        ∧ (sd._tick = none → sd2._tick = none) ∧ sd2.count = sd.count := by
    rintro sd2 (rfl | ⟨c, t0, hcnt, ht, rfl⟩ | rfl)
    · exact ⟨h, le_refl _, fun hn => hn, rfl⟩
    · have hcap := h (c + 1) hcnt
      simp only [ticksCompleted, ht, Option.getD_some] at hcap
      refine ⟨fun c' hc' => ?_, ?_, fun hn => ?_, rfl⟩
      · have hc2 : sd.count = some (some c') := hc'
        rw [hcnt] at hc2
        have hce : c' = c + 1 := by
          injection hc2 with h1
          injection h1 with h2
          omega
        subst hce
        simp only [ticksCompleted, Option.getD_some]
        split <;> omega
      · simp only [ticksCompleted, ht, Option.getD_some]
        split <;> omega
      · rw [ht] at hn
        exact Option.noConfusion hn
    · exact ⟨fun c hc => h c hc, le_refl _, fun hn => hn, rfl⟩
  cases op with
  | tick tty t =>
    rcases tick_sd_eq sd tty t with he | ⟨c, t0, hcnt, ht, he⟩
    · exact key _ (Or.inl he)
    · exact key _ (Or.inr (Or.inl ⟨c, t0, hcnt, ht, he⟩))
  | close tty t =>
    rcases close_sd_eq sd tty t with he | he
    · exact key _ (Or.inl he)
    · exact key _ (Or.inr (Or.inr he))
  | done tty t =>
    rcases close_sd_eq sd tty t with he | he
    · exact key _ (Or.inl he)
    · exact key _ (Or.inr (Or.inr he))

/-- A whole sequence of operations preserves the cap invariant and never
decreases the tick count. -/
theorem runOps_step (sd : StatusDisplay) (ops : List Op) (h : capInv sd) :
    capInv (sd.runOps ops)
    ∧ ticksCompleted sd ≤ ticksCompleted (sd.runOps ops)
    ∧ (sd._tick = none → (sd.runOps ops)._tick = none)
    ∧ (sd.runOps ops).count = sd.count := by
  induction ops generalizing sd with
  | nil => exact ⟨h, le_refl _, fun hn => hn, rfl⟩
  | cons op rest ih =>
    have h1 := applyOp_step sd op h
    have h2 := ih (sd.applyOp op).sd h1.1
    exact ⟨h2.1, le_trans h1.2.1 h2.2.1, fun hn => h2.2.2.1 (h1.2.2.1 hn),
      h2.2.2.2.trans h1.2.2.2⟩

/-- Appending one operation to a run. -/
theorem runOps_append (sd : StatusDisplay) (ops : List Op) (op : Op) :
    sd.runOps (ops ++ [op]) = ((sd.runOps ops).applyOp op).sd := by
  induction ops generalizing sd with
  | nil => rfl
  | cons o rest ih =>
    show (((sd.applyOp o).sd).runOps (rest ++ [op])) = _
    rw [ih]
    rfl

/-- The attribute values produced by an interactive construction. -/
theorem init_fields (msg : PyStr) (cnt : Option Nat) (t0 : Nat) :
    ((StatusDisplay.init msg cnt true t0).1).orig_msg = some (pyStrip msg)
    ∧ ((StatusDisplay.init msg cnt true t0).1).count = some cnt
    ∧ (∃ m, ((StatusDisplay.init msg cnt true t0).1).msg = some m
        ∧ m.length ≤ 39
        ∧ ((StatusDisplay.init msg cnt true t0).1)._width
            = some (79 - ((m.length : Int) + 38)))
    ∧ ((StatusDisplay.init msg cnt true t0).1)._tick = some 0
    ∧ ((StatusDisplay.init msg cnt true t0).1)._start = some t0
    ∧ ((StatusDisplay.init msg cnt true t0).1)._closed = false := by
  refine ⟨rfl, rfl, ⟨if 39 < (pyStrip msg).length
      then (pyStrip msg).take 36 ++ "...".data else pyStrip msg, rfl, ?_, rfl⟩, rfl, rfl, rfl⟩
  by_cases h : 39 < (pyStrip msg).length
  · rw [if_pos h, List.length_append, List.length_take]
    have : min 36 (pyStrip msg).length = 36 := by omega
    rw [this]
    rfl
  · rw [if_neg h]
    omega

/-- For sub-day durations with a non-zero microsecond component,
`str(timedelta)` splits into the `H:MM:SS` base and a 7-character `.ffffff`
fractional tail. -/
theorem tdStr_small (us : Nat) (hm : us % 1000000 ≠ 0) (hd : us < 86400 * 1000000) :
    tdStr us = (natStr (us / 1000000 / 3600) ++ ':' :: pad2 (us / 1000000 / 60 % 60)
      ++ ':' :: pad2 (us / 1000000 % 60)) ++ '.' :: pad6 (us % 1000000) := by
  have h1 : us / 1000000 / 86400 = 0 := by
    rw [Nat.div_div_eq_div_mul]
    exact Nat.div_eq_of_lt (by omega)
  have h2 : us / 1000000 / 3600 % 24 = us / 1000000 / 3600 := by
    apply Nat.mod_eq_of_lt
    rw [Nat.div_div_eq_div_mul]
    exact Nat.div_lt_of_lt_mul (by omega)
  simp only [tdStr, h1, hm, if_true, if_false, ite_true, ite_false, if_neg hm]
  rw [h2]
  simp [List.append_assoc]

/-- Claim C8's amended content: for sub-day durations whose microsecond
component is non-zero, `str(elapsed)[:-4]` is exactly the `H:MM:SS.cc`
field. -/
theorem elapsedField_small (us : Nat) (hm : us % 1000000 ≠ 0) (hd : us < 86400 * 1000000) :
    elapsedField us = specElapsedC8 us := by
  rw [elapsedField, dropLast4, tdStr_small us hm hd]
  have hlen : (('.' :: pad6 (us % 1000000)) : PyStr).length = 7 := rfl
  rw [List.length_append, hlen]
  have harith : (natStr (us / 1000000 / 3600) ++ ':' :: pad2 (us / 1000000 / 60 % 60)
      ++ ':' :: pad2 (us / 1000000 % 60)).length + 7 - 4
      = (natStr (us / 1000000 / 3600) ++ ':' :: pad2 (us / 1000000 / 60 % 60)
      ++ ':' :: pad2 (us / 1000000 % 60)).length + 3 := by omega
  rw [harith, List.take_append]
  rw [specElapsedC8]
  have hdd : us % 1000000 / 10000 / 10 % 10 = us % 1000000 / 100000 % 10 := by
    rw [Nat.div_div_eq_div_mul]
  simp [pad6, pad2, hdd, List.append_assoc]

/-- Repeated closes of an already-closed instance write nothing at all. -/
theorem closeSeq_closed (sd : StatusDisplay) (h : sd._closed = true)
    (l : List (Bool × Nat)) :
    closeSeq sd l = (sd, []) := by
  induction l with
  | nil => rfl
  | cons p rest ih =>
    obtain ⟨tty, t⟩ := p
    simp [closeSeq, close_closed sd h, ih]

/-- After any `close` call, the instance is marked closed. -/
theorem close_after_closed (sd : StatusDisplay) (tty : Bool) (t : Nat) :
    ((sd.close tty t).sd)._closed = true := by
  by_cases h : sd._closed = true
  · rw [close_closed sd h]
    exact h
  · have h' : sd._closed = false := by simpa using h
    simp only [StatusDisplay.close, h', Bool.false_eq_true, if_false]
    rcases sd._start with _ | st
    · rfl
    · by_cases htty : tty
      · simp only [htty, if_true]
        rcases sd.orig_msg with _ | om
        · rfl
        · rcases sd.count with _ | cnt
          · rfl
          · match cnt, sd._tick with
            | none, _ => rfl
            | some 0, _ => rfl
            | some (c + 1), none => rfl
            | some (c + 1), some tk => rfl
      · simp [htty]

/-- A suffix survives prepending on the left. -/
theorem suffix_ext {l m : List Char} (x : List Char) (h : l <:+ m) : l <:+ x ++ m :=
  h.trans (List.suffix_append x m)

/-- A suffix survives a cons on the left. -/
theorem suffix_cons_ext {l m : List Char} (a : Char) (h : l <:+ m) : l <:+ a :: m :=
  h.trans (List.suffix_append [a] m)

/-- A prefix relation survives a common prepended block. -/
theorem prefix_shift {l m : List Char} (x : List Char) (h : l <+: m) : x ++ l <+: x ++ m := by
  obtain ⟨t, rfl⟩ := h
  exact ⟨t, List.append_assoc x l t⟩

/-- A prefix relation survives a common cons. -/
theorem prefix_cons_shift {l m : List Char} (a : Char) (h : l <+: m) : a :: l <+: a :: m := by
  obtain ⟨t, rfl⟩ := h
  exact ⟨t, rfl⟩

/-! ## Claim theorems -/

/-- Claim C1 (code bug): the claim says a closed or non-interactive
StatusDisplay accepts `advance`/`close` as silent no-ops, never an error.
The code refutes it: a non-interactive construction writes nothing but
leaves `_closed = False` (the assignment sits outside the `isatty()` branch)
with no other attribute assigned, so both `tick` and `close` then raise
`AttributeError` reading `_start`; and `tick` never checks `_closed`, so on
an interactive instance an advance AFTER close still writes a status line.
This theorem evaluates the code at those failing inputs. -/
theorem c1_noninteractive_not_inert :
    (StatusDisplay.init "work".data none false 0).2 = []
    ∧ ((StatusDisplay.init "work".data none false 0).1).tick false 7
        = ⟨(StatusDisplay.init "work".data none false 0).1, [], some PyErr.attributeError⟩
    ∧ (((StatusDisplay.init "work".data none false 0).1).close false 7).err
        = some PyErr.attributeError
    ∧ (((StatusDisplay.init "work".data none false 0).1).close false 7).out = []
    ∧ ((((StatusDisplay.init "work".data none true 0).1).close true 1000000).sd)._closed
        = true
    ∧ (((((StatusDisplay.init "work".data none true 0).1).close true 1000000).sd).tick
        true 2000000).out ≠ [] := by
  refine ⟨rfl, by decide, by decide, by decide, by decide, by decide⟩

/-- Claim C3: close is idempotent.  For an open instance with its attributes
assigned (as an interactive construction leaves it), the first close writes
the finalized line (a non-empty write) and marks the instance closed; a whole
sequence of further `close` calls - whatever their tty state and clock values
- writes nothing more, so N > 1 closes produce output identical to one; and
every subsequent `close` or `done` call is a complete no-op. -/
theorem c3_idempotent_close (sd : StatusDisplay) (st tk : Nat) (om : PyStr)
    (cnt : Option Nat) (t : Nat) (rest : List (Bool × Nat))
    (hcl : sd._closed = false) (hst : sd._start = some st)
    (hom : sd.orig_msg = some om) (hcnt : sd.count = some cnt) (ht : sd._tick = some tk) :
    (sd.close true t).err = none
    ∧ (sd.close true t).out ≠ []
    ∧ ((sd.close true t).sd)._closed = true
    ∧ (closeSeq sd ((true, t) :: rest)).2 = (sd.close true t).out
    ∧ (∀ tty2 u, ((sd.close true t).sd).close tty2 u = ⟨(sd.close true t).sd, [], none⟩
        ∧ ((sd.close true t).sd).done tty2 u = ⟨(sd.close true t).sd, [], none⟩) := by
  have hr := close_renders sd st om cnt tk t hcl hst hom hcnt ht
  have hclosed : ((sd.close true t).sd)._closed = true := close_after_closed sd true t
  refine ⟨by rw [hr], ?_, hclosed, ?_, fun tty2 u => ?_⟩
  · rw [hr]
    simp
  · simp only [closeSeq]
    rw [closeSeq_closed ((sd.close true t).sd) hclosed rest]
    simp
  · exact ⟨close_closed _ hclosed tty2 u, close_closed _ hclosed tty2 u⟩

/-- Witness for C3 at a concrete instance: three closes (with varying tty
states and clock values) write exactly what the first close writes. -/
theorem c3_witness :
    (((StatusDisplay.init "job".data (some 2) true 0).1)._closed = false)
    ∧ (closeSeq ((StatusDisplay.init "job".data (some 2) true 0).1)
        [(true, 5000000), (true, 7000000), (false, 8)]).2
      = (((StatusDisplay.init "job".data (some 2) true 0).1).close true 5000000).out :=
  ⟨rfl, (c3_idempotent_close ((StatusDisplay.init "job".data (some 2) true 0).1)
      0 0 "job".data (some 2) 5000000 [(true, 7000000), (false, 8)]
      rfl rfl rfl rfl rfl).2.2.2.1⟩

/-- Claim C4: ticksCompleted starts at 0, is monotonically non-decreasing
across every sequence of advance/close/done operations (whatever the tty
states and clock values), and in determinate mode never exceeds the total:
excess advances cap rather than wrap or error. -/
theorem c4_monotonic_cap (msg : PyStr) (cnt : Option Nat) (tty : Bool) (t0 : Nat)
    (ops : List Op) (op : Op) :
    ticksCompleted ((StatusDisplay.init msg cnt tty t0).1) = 0
    ∧ ticksCompleted (((StatusDisplay.init msg cnt tty t0).1).runOps ops)
        ≤ ticksCompleted (((StatusDisplay.init msg cnt tty t0).1).runOps (ops ++ [op]))
    ∧ (∀ c, cnt = some c →
        ticksCompleted (((StatusDisplay.init msg cnt tty t0).1).runOps ops) ≤ c) := by
  have h0 : ticksCompleted ((StatusDisplay.init msg cnt tty t0).1) = 0 := by
    cases tty <;> rfl
  have hcap0 : capInv ((StatusDisplay.init msg cnt tty t0).1) := by
    cases tty with
    | false =>
      intro c hc
      exact Option.noConfusion hc
    | true =>
      intro c hc
      have : cnt = some c := by
        injection hc
      rw [h0]
      exact Nat.zero_le c
  have hrun := runOps_step ((StatusDisplay.init msg cnt tty t0).1) ops hcap0
  have hstep := applyOp_step (((StatusDisplay.init msg cnt tty t0).1).runOps ops) op hrun.1
  refine ⟨h0, ?_, fun c hc => ?_⟩
  · rw [runOps_append]
    exact hstep.2.1
  · cases tty with
    | false =>
      have hn : ((StatusDisplay.init msg cnt false t0).1)._tick = none := rfl
      have hnone := hrun.2.2.1 hn
      rw [ticksCompleted, hnone]
      exact Nat.zero_le c
    | true =>
      subst hc
      have hcount : (((StatusDisplay.init msg (some c) true t0).1).runOps ops).count
          = some (some c) := hrun.2.2.2
      exact hrun.1 c hcount

/-- Witness for C4 at the spec's own instance: total 5, ten advances.  The cap
bound comes from applying the claim theorem; the direct evaluation confirms
the count lands exactly on 5 (capped, not wrapped). -/
theorem c4_witness :
    (some (5 : Nat) = some 5)
    ∧ ticksCompleted (((StatusDisplay.init "job".data (some 5) true 0).1).runOps
        (List.replicate 10 (Op.tick true 0))) ≤ 5
    ∧ ticksCompleted (((StatusDisplay.init "job".data (some 5) true 0).1).runOps
        (List.replicate 10 (Op.tick true 0))) = 5 :=
  ⟨rfl, (c4_monotonic_cap "job".data (some 5) true 0 (List.replicate 10 (Op.tick true 0))
      (Op.tick true 0)).2.2 5 rfl, by decide⟩

/-- Claim C5 (counterexample): the claim's floor formulas do not describe the
code universally, because the code computes `int(a / b)` with binary64 true
division, which can round across an integer boundary.  At bar width 3, total
900000000000001, advance number 633333333333334 (a state reached from
`StatusDisplay(msg38, 900000000000001)` after 633333333333333 advances), the
floor phase index is `9 * (3 * 633333333333334) / total - 9 * 2 = 0`, so the
claim says no partial glyph is rendered - but the code's rounded division
yields phase 1 and a `'▏'` glyph appears in the rendered line. -/
theorem c5_counterexample :
    (sdC5.tick true 3661500000).err = none
    ∧ (sdC5.tick true 3661500000).out
        ≠ tickLine 3661500000 msg38 (specBar 3 633333333333334 900000000000001)
            633333333333334 900000000000001
    ∧ ((sdC5.tick true 3661500000).out).count '▏' = 1
    ∧ (tickLine 3661500000 msg38 (specBar 3 633333333333334 900000000000001)
        633333333333334 900000000000001).count '▏' = 0
    ∧ 3 * 633333333333334 / 900000000000001 = 2
    ∧ 9 * (3 * 633333333333334) / 900000000000001 - 9 * 2 = 0 := by
  refine ⟨by decide, by decide, by decide, by decide, by decide, by decide⟩

/-- Claim C5 (amended): for every determinate-mode advance within the
binary64-exact regime `9 * barWidth * ticksCompleted ≤ 2 ^ 53` (true in any
realistic use), the rendered bar consists of
`filledLength = floor(barWidth * ticks / total)` full-block glyphs followed
by the partial glyph at
`phaseIndex = floor(9 * barWidth * ticks / total) - 9 * filledLength`,
a value in [0, 8], omitted when 0, padded with spaces to the bar width - the
whole line and state update are exactly `tickLine`/`specBar`. -/
theorem c5_bar_floor (sd : StatusDisplay) (st c t0 : Nat) (w : Int) (m : PyStr) (now : Nat)
    (hst : sd._start = some st) (hcnt : sd.count = some (some (c + 1)))
    (ht : sd._tick = some t0) (hw : sd._width = some w) (hm : sd.msg = some m)
    (hw0 : 0 ≤ w)
    (hsmall : 9 * (w.toNat * min (t0 + 1) (c + 1)) ≤ 2 ^ 53) :
    sd.tick true now =
      ⟨{ sd with _tick := some (min (t0 + 1) (c + 1)) },
       tickLine (now - st) m (specBar w.toNat (min (t0 + 1) (c + 1)) (c + 1))
         (min (t0 + 1) (c + 1)) (c + 1), none⟩
    ∧ 9 * (w.toNat * min (t0 + 1) (c + 1)) / (c + 1)
        - 9 * (w.toNat * min (t0 + 1) (c + 1) / (c + 1)) ≤ 8 := by
  refine ⟨tick_det_eq sd st c t0 w m now hst hcnt ht hw hm hw0 hsmall, ?_⟩
  have hdm := Nat.div_add_mod (w.toNat * min (t0 + 1) (c + 1)) (c + 1)
  have hmlt := Nat.mod_lt (w.toNat * min (t0 + 1) (c + 1)) (show 0 < c + 1 by omega)
  have h9 : 9 * (w.toNat * min (t0 + 1) (c + 1)) / (c + 1)
      < 9 * (w.toNat * min (t0 + 1) (c + 1) / (c + 1)) + 9 := by
    rw [Nat.div_lt_iff_lt_mul (Nat.succ_pos c)]
    have he : (9 * (w.toNat * min (t0 + 1) (c + 1) / (c + 1)) + 9) * (c + 1)
        = 9 * ((c + 1) * (w.toNat * min (t0 + 1) (c + 1) / (c + 1))) + 9 * (c + 1) := by
      ring
    rw [he]
    omega
  omega

/-- Witness for C5 at the spec's own instance: bar width 10, total 80,
advance number 33 → 4 full blocks, ramp glyph 1, 5 spaces. -/
theorem c5_witness :
    9 * ((10 : Int).toNat * min (32 + 1) (79 + 1)) ≤ 2 ^ 53
    ∧ sdC5w.tick true 500000 =
        ⟨{ sdC5w with _tick := some (min (32 + 1) (79 + 1)) },
         tickLine (500000 - 0) msg31
           (specBar (10 : Int).toNat (min (32 + 1) (79 + 1)) (79 + 1))
           (min (32 + 1) (79 + 1)) (79 + 1), none⟩
    ∧ specBar 10 33 80 = "████▏     ".data :=
  ⟨by decide,
   (c5_bar_floor sdC5w 0 79 32 10 msg31 500000 rfl rfl rfl rfl rfl (by decide)
      (by decide)).1,
   by decide⟩

/-- Claim C6 (counterexample): the claim says the advance counter omits
'/total' once the tick count reaches the total.  The code never omits it in
`tick`: with total 1, the first advance renders a line ending in ' [1/1]',
not the claimed ' [1]'. -/
theorem c6_counterexample :
    ( " [1/1]".data <:+ (((StatusDisplay.init "job".data (some 1) true 0).1).tick
        true 1500000).out)
    ∧ ¬ ( " [1]".data <:+ (((StatusDisplay.init "job".data (some 1) true 0).1).tick
        true 1500000).out)
    ∧ (((StatusDisplay.init "job".data (some 1) true 0).1).tick true 1500000).err = none
    ∧ ticksCompleted ((((StatusDisplay.init "job".data (some 1) true 0).1).tick
        true 1500000).sd) = 1 := by
  refine ⟨by decide, by decide, by decide, by decide⟩

/-- Claim C6 (amended): in every determinate-mode advance (within the
binary64-exact regime, so that the line renders), the trailing counter is
' [' + tick + '/' + total + ']' - the '/total' part is always present, even
when the tick count equals the total; only the close line ever omits it. -/
theorem c6_counter_always_total (sd : StatusDisplay) (st c t0 : Nat) (w : Int)
    (m : PyStr) (now : Nat)
    (hst : sd._start = some st) (hcnt : sd.count = some (some (c + 1)))
    (ht : sd._tick = some t0) (hw : sd._width = some w) (hm : sd.msg = some m)
    (hw0 : 0 ≤ w)
    (hsmall : 9 * (w.toNat * min (t0 + 1) (c + 1)) ≤ 2 ^ 53) :
    ( " [".data ++ natStr (min (t0 + 1) (c + 1)) ++ '/' :: natStr (c + 1) ++ "]".data)
      <:+ (sd.tick true now).out := by
  rw [tick_det_eq sd st c t0 w m now hst hcnt ht hw hm hw0 hsmall]
  show _ <:+ tickLine (now - st) m (specBar w.toNat (min (t0 + 1) (c + 1)) (c + 1))
    (min (t0 + 1) (c + 1)) (c + 1)
  refine List.IsSuffix.trans ⟨['|'], rfl⟩
    ⟨hideCursor ++ '\r' :: clearLine ++ '[' :: elapsedField (now - st) ++ "] ".data
      ++ m ++ " |".data ++ specBar w.toNat (min (t0 + 1) (c + 1)) (c + 1), ?_⟩
  simp only [tickLine, List.append_assoc, List.cons_append, List.nil_append]

/-- Witness for C6 at a concrete completed advance (tick = total = 1): the
rendered line still carries the full ' [1/1]' counter. -/
theorem c6_witness :
    ( " [".data ++ natStr (min (0 + 1) (0 + 1)) ++ '/' :: natStr (0 + 1) ++ "]".data)
      <:+ (((StatusDisplay.init "job".data (some 1) true 0).1).tick true 1500000).out :=
  c6_counter_always_total ((StatusDisplay.init "job".data (some 1) true 0).1)
    0 0 0 38 "job".data 1500000 rfl rfl rfl rfl rfl (by decide) (by decide)

/-- Claim C7 (counterexample): the claim says the close counter appears only
when at least one tick occurred.  The code appends it whenever the total is
truthy: closing immediately after construction with total 5 writes ' [0/5]',
where the claim predicts no counter at all. -/
theorem c7_counterexample :
    ((((StatusDisplay.init "job".data (some 5) true 0).1).close true 0).out
      = '\r' :: clearLine ++ '[' :: elapsedField 0 ++ "] ".data ++ "job".data
        ++ closeCounter 0 (some 5) ++ showCursor ++ ['\n'])
    ∧ closeCounter 0 (some 5) = " [0/5]".data
    ∧ specCloseCounterC7 0 (some 5) = []
    ∧ (((StatusDisplay.init "job".data (some 5) true 0).1).close true 0).out
      ≠ '\r' :: clearLine ++ '[' :: elapsedField 0 ++ "] ".data ++ "job".data
        ++ specCloseCounterC7 0 (some 5) ++ showCursor ++ ['\n'] := by
  refine ⟨by decide, by decide, by decide, by decide⟩

/-- Claim C7 (amended): for every close of an open interactive instance, the
counter ' [<tick>' + ('/<total>' if tick ≠ total) + ']' is appended if and
only if the total was set and non-zero (determinate mode) - regardless of how
many, including zero, ticks occurred. -/
theorem c7_close_counter (sd : StatusDisplay) (st : Nat) (om : PyStr) (cnt : Option Nat)
    (tk : Nat) (now : Nat)
    (hcl : sd._closed = false) (hst : sd._start = some st)
    (hom : sd.orig_msg = some om) (hcnt : sd.count = some cnt) (ht : sd._tick = some tk) :
    sd.close true now =
      ⟨{ sd with _closed := true },
       '\r' :: clearLine ++ '[' :: elapsedField (now - st) ++ "] ".data ++ om
         ++ closeCounter tk cnt ++ showCursor ++ ['\n'], none⟩
    ∧ (closeCounter tk cnt = [] ↔ cnt = none ∨ cnt = some 0) := by
  refine ⟨close_renders sd st om cnt tk now hcl hst hom hcnt ht, ?_⟩
  match cnt with
  | none => simp [closeCounter]
  | some 0 => simp [closeCounter]
  | some (c + 1) => simp [closeCounter]

/-- Witness for C7 at a concrete zero-tick close with total 5: the counter is
present (' [0/5]') even though no tick occurred. -/
theorem c7_witness :
    ((((StatusDisplay.init "job".data (some 5) true 0).1).close true 2500000).out
      = '\r' :: clearLine ++ '[' :: elapsedField 2500000 ++ "] ".data ++ "job".data
        ++ closeCounter 0 (some 5) ++ showCursor ++ ['\n'])
    ∧ closeCounter 0 (some 5) ≠ [] :=
  ⟨by rw [(c7_close_counter ((StatusDisplay.init "job".data (some 5) true 0).1)
      0 "job".data (some 5) 0 2500000 rfl rfl rfl rfl rfl).1],
   by decide⟩

/-- Claim C8 (counterexample): the claim says advance and close always format
the elapsed time as H:MM:SS.cc, including when the microsecond component is
zero.  When it is zero, Python's `str(timedelta)` carries no fractional part
at all, so dropping 4 characters mangles the field: an elapsed time of
exactly 5 seconds renders as '[0:0] ', not '[0:00:05.00] '. -/
theorem c8_counterexample :
    elapsedField 5000000 = "0:0".data
    ∧ specElapsedC8 5000000 = "0:00:05.00".data
    ∧ elapsedField 5000000 ≠ specElapsedC8 5000000
    ∧ (((StatusDisplay.init "job".data none true 0).1).close true 5000000).out
        = "\r\x1b[K[0:0] job\x1b[?25h\n".data
    ∧ (((StatusDisplay.init "job".data none true 0).1).tick true 5000000).out
        = "\x1b[?25l\r\x1b[K[0:0] job".data := by
  refine ⟨by decide, by decide, by decide, by decide, by decide⟩

/-- Claim C8 (amended): for every elapsed duration below 24 hours whose
microsecond component is non-zero, the field advance and close write is
obtained by dropping the last 4 characters of the microsecond-precision
duration string, and equals H:MM:SS.cc with exactly two fractional digits;
the close line embeds it verbatim. -/
theorem c8_elapsed_centis (us : Nat) (hm : us % 1000000 ≠ 0) (hd : us < 86400 * 1000000) :
    elapsedField us = specElapsedC8 us
    ∧ (∀ (sd : StatusDisplay) (st : Nat) (om : PyStr) (cnt : Option Nat) (tk : Nat),
        sd._closed = false → sd._start = some st → sd.orig_msg = some om →
        sd.count = some cnt → sd._tick = some tk →
        (sd.close true (st + us)).out
          = '\r' :: clearLine ++ '[' :: specElapsedC8 us ++ "] ".data ++ om
            ++ closeCounter tk cnt ++ showCursor ++ ['\n']) := by
  have h1 := elapsedField_small us hm hd
  refine ⟨h1, fun sd st om cnt tk hcl hst hom hcnt ht => ?_⟩
  rw [close_renders sd st om cnt tk (st + us) hcl hst hom hcnt ht]
  rw [show st + us - st = us from by omega, h1]

/-- Witness for C8 at elapsed 1:01:01.5: the dropped-4-characters field is
exactly the centisecond rendering. -/
theorem c8_witness :
    ((3661500000 : Nat) % 1000000 ≠ 0)
    ∧ elapsedField 3661500000 = specElapsedC8 3661500000
    ∧ specElapsedC8 3661500000 = "1:01:01.50".data :=
  ⟨by decide, (c8_elapsed_centis 3661500000 (by decide) (by decide)).1, by decide⟩

/-- A prefix of a list is a prefix of any right-extension of it. -/
theorem prefix_extend {l m : List Char} {x : List Char} (h : l <+: m) : l <+: m ++ x :=
  h.trans (List.prefix_append m x)

/-- Claim C9: message truncation.  For a trimmed message longer than 39
characters, displayMessage is its first 36 characters plus a 3-character
ellipsis (39 characters total), and that is what a determinate advance
renders; the construction line and the close line always render the full
untruncated trimmed message; a trimmed message of at most 39 characters is
used unchanged. -/
theorem c9_truncation (msg : PyStr) (cnt : Option Nat) (t0 t : Nat)
    (h39 : 39 < (pyStrip msg).length) :
    ((StatusDisplay.init msg cnt true t0).1).msg
        = some ((pyStrip msg).take 36 ++ "...".data)
    ∧ ((pyStrip msg).take 36 ++ "...".data).length = 39
    ∧ (StatusDisplay.init msg cnt true t0).2
        = hideCursor ++ "[-:--:--.--] ".data ++ pyStrip msg
    ∧ (∀ c, cnt = some (c + 1) →
        (hideCursor ++ '\r' :: clearLine ++ '[' :: elapsedField (t - t0) ++ "] ".data
          ++ ((pyStrip msg).take 36 ++ "...".data) ++ " |".data)
          <+: (((StatusDisplay.init msg cnt true t0).1).tick true t).out)
    ∧ (∃ rest, (((StatusDisplay.init msg cnt true t0).1).close true t).out
        = '\r' :: clearLine ++ '[' :: elapsedField (t - t0) ++ "] ".data
          ++ pyStrip msg ++ rest)
    ∧ (∀ msg2 : PyStr, (pyStrip msg2).length ≤ 39 →
        ((StatusDisplay.init msg2 cnt true t0).1).msg = some (pyStrip msg2)) := by
  have hlen : ((pyStrip msg).take 36 ++ "...".data).length = 39 := by
    rw [List.length_append, List.length_take]
    have : min 36 (pyStrip msg).length = 36 := by omega
    rw [this]
    rfl
  have hmsg : ((StatusDisplay.init msg cnt true t0).1).msg
      = some ((pyStrip msg).take 36 ++ "...".data) := by
    show some (if 39 < (pyStrip msg).length then (pyStrip msg).take 36 ++ "...".data
      else pyStrip msg) = _
    rw [if_pos h39]
  refine ⟨hmsg, hlen, rfl, fun c hc => ?_, ?_, fun msg2 h2 => ?_⟩
  · subst hc
    have hw : ((StatusDisplay.init msg (some (c + 1)) true t0).1)._width
        = some (79 - ((((pyStrip msg).take 36 ++ "...".data).length : Int) + 38)) := by
      show some (79 - (((if 39 < (pyStrip msg).length then (pyStrip msg).take 36
        ++ "...".data else pyStrip msg).length : Int) + 38)) = _
      rw [if_pos h39]
    have hw2 : (79 - ((((pyStrip msg).take 36 ++ "...".data).length : Int) + 38)) = 2 := by
      rw [hlen]
      norm_num
    rw [hw2] at hw
    have hsm : 9 * ((2 : Int).toNat * min (0 + 1) (c + 1)) ≤ 2 ^ 53 := by
      have : min (0 + 1) (c + 1) = 1 := by
        rw [min_eq_left]
        omega
      rw [this]
      decide
    have he := tick_det_eq ((StatusDisplay.init msg (some (c + 1)) true t0).1)
      t0 c 0 2 ((pyStrip msg).take 36 ++ "...".data) t rfl rfl rfl hw hmsg
      (by norm_num) hsm
    rw [he]
    show _ <+: tickLine (t - t0) ((pyStrip msg).take 36 ++ "...".data)
      (specBar (2 : Int).toNat (min (0 + 1) (c + 1)) (c + 1)) (min (0 + 1) (c + 1)) (c + 1)
    rw [tickLine]
    exact prefix_extend (prefix_extend (prefix_extend (prefix_extend
      (List.prefix_append _ _))))
  · refine ⟨closeCounter 0 cnt ++ showCursor ++ ['\n'], ?_⟩
    rw [close_renders ((StatusDisplay.init msg cnt true t0).1) t0 (pyStrip msg) cnt 0 t
      rfl rfl rfl rfl rfl]
    simp [List.append_assoc]
  · show some (if 39 < (pyStrip msg2).length then (pyStrip msg2).take 36 ++ "...".data
      else pyStrip msg2) = _
    rw [if_neg (by omega)]

/-- Witness for C9 with a 50-character message: displayMessage is 36
characters plus the ellipsis, 39 characters in all. -/
theorem c9_witness :
    (39 < (pyStrip (List.replicate 50 'c')).length)
    ∧ ((StatusDisplay.init (List.replicate 50 'c') none true 0).1).msg
        = some ((pyStrip (List.replicate 50 'c')).take 36 ++ "...".data)
    ∧ ((pyStrip (List.replicate 50 'c')).take 36 ++ "...".data).length = 39 :=
  ⟨by decide,
   (c9_truncation (List.replicate 50 'c') none 0 5 (by decide)).1,
   (c9_truncation (List.replicate 50 'c') none 0 5 (by decide)).2.1⟩

/-- Claim C10: for every interactive construction, the stored bar width is
`79 - (length of displayMessage + 38)`, the display message never exceeds 39
characters, and hence the bar width is always at least 2 - the degraded
zero-or-negative-width rendering case is unreachable. -/
theorem c10_barwidth (msg : PyStr) (cnt : Option Nat) (t0 : Nat) :
    ∃ w : Int, ((StatusDisplay.init msg cnt true t0).1)._width = some w
      ∧ (∃ m, ((StatusDisplay.init msg cnt true t0).1).msg = some m
          ∧ m.length ≤ 39 ∧ w = 79 - ((m.length : Int) + 38))
      ∧ 2 ≤ w := by
  obtain ⟨h1, h2, ⟨m, hm, hlen, hw⟩, h4, h5, h6⟩ := init_fields msg cnt t0
  exact ⟨79 - ((m.length : Int) + 38), hw, ⟨m, hm, hlen, rfl⟩, by omega⟩

/-- Any advance call, on any state, whatever it raises, preserves every
attribute other than `_tick`, and keeps `_tick` assigned once it is. -/
theorem tick_fields (sd : StatusDisplay) (tty : Bool) (t : Nat) :
    ((sd.tick tty t).sd).orig_msg = sd.orig_msg
    ∧ ((sd.tick tty t).sd).count = sd.count
    ∧ ((sd.tick tty t).sd)._start = sd._start
    ∧ ((sd.tick tty t).sd)._closed = sd._closed
    ∧ (∀ tk, sd._tick = some tk → ∃ tk2, ((sd.tick tty t).sd)._tick = some tk2) := by
  rcases tick_sd_eq sd tty t with he | ⟨c, t0, hcnt, ht, he⟩ <;> rw [he]
  · exact ⟨rfl, rfl, rfl, rfl, fun tk h => ⟨tk, h⟩⟩
  · exact ⟨rfl, rfl, rfl, rfl, fun tk h => ⟨_, rfl⟩⟩

/-- A whole scope body of advance calls - whether it completes, raises its
designated failure, or is stopped by an advance's own exception - preserves
every attribute other than `_tick` and keeps `_tick` assigned. -/
theorem ticksBody_fields (times : List Nat) (fail : Option PyErr) (sd : StatusDisplay) :
    ((ticksBody true times fail sd).sd).orig_msg = sd.orig_msg
    ∧ ((ticksBody true times fail sd).sd).count = sd.count
    ∧ ((ticksBody true times fail sd).sd)._start = sd._start
    ∧ ((ticksBody true times fail sd).sd)._closed = sd._closed
    ∧ (∀ tk, sd._tick = some tk →
        ∃ tk2, ((ticksBody true times fail sd).sd)._tick = some tk2) := by
  induction times generalizing sd with
  | nil => exact ⟨rfl, rfl, rfl, rfl, fun tk h => ⟨tk, h⟩⟩
  | cons t rest ih =>
    have h1 := tick_fields sd true t
    rcases hr : (sd.tick true t).err with _ | e
    · have h2 := ih ((sd.tick true t).sd)
      simp only [ticksBody, hr]
      exact ⟨h2.1.trans h1.1, h2.2.1.trans h1.2.1, h2.2.2.1.trans h1.2.2.1,
        h2.2.2.2.1.trans h1.2.2.2.1,
        fun tk h => by
          obtain ⟨tk2, h2'⟩ := h1.2.2.2.2 tk h
          exact h2.2.2.2.2 tk2 h2'⟩
    · simp only [ticksBody, hr]
      exact h1

/-- Claim C2 (counterexample): for a NON-interactive instance used as a
scoped resource, a failure propagating out of the body is not preserved: the
`close` that `__exit__` performs itself raises `AttributeError` (the
instance's `_start` was never assigned, while `__init__` still set `_closed`
to `False`), and that exception replaces the original one.  Here the body
raises `ValueError`, but the scope propagates `AttributeError`. -/
theorem c2_counterexample :
    (pyWith ((StatusDisplay.init "job".data none false 0).1) false 9
      (ticksBody false [] (some PyErr.valueError))).err = some PyErr.attributeError
    ∧ (pyWith ((StatusDisplay.init "job".data none false 0).1) false 9
      (ticksBody false [] (some PyErr.valueError))).err ≠ some PyErr.valueError := by
  refine ⟨by decide, by decide⟩

/-- Claim C2 (amended): for every INTERACTIVE StatusDisplay used as a scoped
resource, with any total: entering the scope yields the same already-active
instance; leaving the scope - by normal completion or by any propagating
failure, the body's designated one or an advance's own exception - invokes
close exactly once, writing the one finalized line, without suppressing or
altering the propagating failure; `done` has exactly the effect of `close`;
and afterwards the instance is closed, every further close a no-op. -/
theorem c2_scoped_interactive (msg : PyStr) (cnt : Option Nat) (t0 tc : Nat)
    (times : List Nat) (fail : Option PyErr) :
    ((StatusDisplay.init msg cnt true t0).1).enter = (StatusDisplay.init msg cnt true t0).1
    ∧ (∀ (sd : StatusDisplay) (tty : Bool) (u : Nat), sd.done tty u = sd.close tty u)
    ∧ (pyWith ((StatusDisplay.init msg cnt true t0).1) true tc
        (ticksBody true times fail)).err
      = (ticksBody true times fail ((StatusDisplay.init msg cnt true t0).1)).err
    ∧ (pyWith ((StatusDisplay.init msg cnt true t0).1) true tc
        (ticksBody true times fail)).out
      = (ticksBody true times fail ((StatusDisplay.init msg cnt true t0).1)).out
        ++ ((ticksBody true times fail ((StatusDisplay.init msg cnt true t0).1)).sd.close
            true tc).out
    ∧ ((ticksBody true times fail ((StatusDisplay.init msg cnt true t0).1)).sd.close
        true tc).out ≠ []
    ∧ ((pyWith ((StatusDisplay.init msg cnt true t0).1) true tc
        (ticksBody true times fail)).sd)._closed = true
    ∧ (∀ (tty : Bool) (u : Nat),
        ((pyWith ((StatusDisplay.init msg cnt true t0).1) true tc
          (ticksBody true times fail)).sd).close tty u
        = ⟨(pyWith ((StatusDisplay.init msg cnt true t0).1) true tc
            (ticksBody true times fail)).sd, [], none⟩) := by
  have hf := ticksBody_fields times fail ((StatusDisplay.init msg cnt true t0).1)
  obtain ⟨tk2, htk2⟩ := hf.2.2.2.2 0 rfl
  have hclose := close_renders
    ((ticksBody true times fail ((StatusDisplay.init msg cnt true t0).1)).sd)
    t0 (pyStrip msg) cnt tk2 tc hf.2.2.2.1 hf.2.2.1 hf.1 hf.2.1 htk2
  have hwith : pyWith ((StatusDisplay.init msg cnt true t0).1) true tc
      (ticksBody true times fail)
      = ⟨{ (ticksBody true times fail ((StatusDisplay.init msg cnt true t0).1)).sd
            with _closed := true },
         (ticksBody true times fail ((StatusDisplay.init msg cnt true t0).1)).out
           ++ ((ticksBody true times fail
                ((StatusDisplay.init msg cnt true t0).1)).sd.close true tc).out,
         (ticksBody true times fail ((StatusDisplay.init msg cnt true t0).1)).err⟩ := by
    simp only [pyWith, StatusDisplay.enter, StatusDisplay.scopeExit, hclose]
  refine ⟨rfl, fun sd tty u => rfl, ?_, ?_, ?_, ?_, fun tty u => ?_⟩
  · rw [hwith]
  · rw [hwith]
  · rw [hclose]
    simp
  · rw [hwith]
  · rw [hwith]
    exact close_closed _ rfl tty u

/-- Witness for C2 at a concrete interactive scope: total 3, two advances,
then a ValueError raised in the body - the scope propagates exactly that
failure and the instance ends up closed. -/
theorem c2_witness :
    (pyWith ((StatusDisplay.init "job".data (some 3) true 0).1) true 9000000
        (ticksBody true [1000000, 2000000] (some PyErr.valueError))).err
      = (ticksBody true [1000000, 2000000] (some PyErr.valueError)
          ((StatusDisplay.init "job".data (some 3) true 0).1)).err
    ∧ (ticksBody true [1000000, 2000000] (some PyErr.valueError)
          ((StatusDisplay.init "job".data (some 3) true 0).1)).err
      = some PyErr.valueError
    ∧ ((pyWith ((StatusDisplay.init "job".data (some 3) true 0).1) true 9000000
        (ticksBody true [1000000, 2000000] (some PyErr.valueError))).sd)._closed = true :=
  ⟨(c2_scoped_interactive "job".data (some 3) 0 9000000 [1000000, 2000000]
      (some PyErr.valueError)).2.2.1,
   by decide,
   (c2_scoped_interactive "job".data (some 3) 0 9000000 [1000000, 2000000]
      (some PyErr.valueError)).2.2.2.2.2.1⟩
